import Mathlib

/-!
Verification of the core editor components of the `zee` editor: the
`OpaqueDiff` edit descriptor, the `SyntaxTree` incremental-parse state
machine, the `SyntaxCursor` node-trace descent, the filename → mode
resolver, the buffer view scroll logic, and the editor's `open_file`
entry point.  Definitions are shallow embeddings of the corresponding
Rust source (`src/syntax/parse.rs`, `src/mode.rs`,
`core/src/components/buffer/mod.rs`, `core/src/editor/mod.rs`).
-/

namespace Zee

/-! ## OpaqueDiff (src/syntax/parse.rs, lines 168-207) -/

/-- A triple describing one byte-range edit: `OpaqueDiff` in
`src/syntax/parse.rs`. -/
structure OpaqueDiff where
  byte_index : Nat
  old_length : Nat
  new_length : Nat
  deriving Repr, DecidableEq

namespace OpaqueDiff

/-- `OpaqueDiff::new`. -/
def new (byte_index old_length new_length : Nat) : OpaqueDiff :=
  { byte_index := byte_index, old_length := old_length, new_length := new_length }

/-- `OpaqueDiff::empty`. -/
def empty : OpaqueDiff :=
  { byte_index := 0, old_length := 0, new_length := 0 }

/-- `OpaqueDiff::is_empty`. -/
def is_empty (d : OpaqueDiff) : Bool :=
  d.byte_index == 0 && d.old_length == 0 && d.new_length == 0

/-- `OpaqueDiff::reverse`. -/
def reverse (d : OpaqueDiff) : OpaqueDiff :=
  { byte_index := d.byte_index
    old_length := d.new_length
    new_length := d.old_length }

end OpaqueDiff

/-! ## Syntax trees (tree-sitter collaborator model) -/

/-- A concrete syntax tree node, modelling tree-sitter's `Node`: a kind
name, an error flag, a byte range and an ordered list of children. -/
inductive TSNode where
  | node (kind : String) (is_error : Bool) (start_byte end_byte : Nat)
      (children : List TSNode)

namespace TSNode

def kind : TSNode → String
  | .node k _ _ _ _ => k

def is_error : TSNode → Bool
  | .node _ e _ _ _ => e

def start_byte : TSNode → Nat
  | .node _ _ s _ _ => s

def end_byte : TSNode → Nat
  | .node _ _ _ e _ => e

def children : TSNode → List TSNode
  | .node _ _ _ _ cs => cs

end TSNode

/-- Tree-sitter's `Point` (row/column position). -/
structure TreeSitterPoint where
  row : Nat
  column : Nat
  deriving Repr, DecidableEq

/-- `TreeSitterPoint::new`. -/
def TreeSitterPoint.new (row column : Nat) : TreeSitterPoint :=
  { row := row, column := column }

/-- Tree-sitter's `InputEdit`. -/
structure TreeSitterInputEdit where
  start_byte : Nat
  old_end_byte : Nat
  new_end_byte : Nat
  start_position : TreeSitterPoint
  old_end_position : TreeSitterPoint
  new_end_position : TreeSitterPoint
  deriving Repr, DecidableEq

/-- Tree-sitter's `Tree`: its root node, together with the log of
`InputEdit`s applied to it since it was produced by a parse.
`Tree::edit` is external library code; it is modelled abstractly as
recording the applied edit. -/
structure Tree where
  root : TSNode
  edits : List TreeSitterInputEdit

/-- `tree.root_node().end_byte()`. -/
def Tree.root_end_byte (t : Tree) : Nat :=
  t.root.end_byte

/-- `Tree::edit` (external tree-sitter code), modelled as appending the
applied `InputEdit` to the tree's edit log. -/
def Tree.applyEdit (t : Tree) (e : TreeSitterInputEdit) : Tree :=
  { t with edits := t.edits ++ [e] }

/-- ropey's `Rope`, modelled as its byte content. -/
structure Rope where
  bytes : List Nat

/-- `Rope::len_bytes`. -/
def Rope.len_bytes (r : Rope) : Nat :=
  r.bytes.length

/-- `Rope::new` — the empty rope. -/
def Rope.new : Rope :=
  { bytes := [] }

/-! ## SyntaxTree state machine (src/syntax/parse.rs, lines 22-166)

The cancel flags are shared atomics (`Arc<AtomicUsize>`); their store is
modelled as a map from flag id to the flag's boolean value, passed
alongside the `SyntaxTree` state and updated explicitly. -/

abbrev TaskId := Nat

abbrev FlagId := Nat

/-- The store of cancel-flag atomics: flag id → current value. -/
def FlagStore := FlagId → Bool

/-- `CancelFlag::set` — store `CANCEL_FLAG_SET`. -/
def FlagStore.set (f : FlagStore) (i : FlagId) : FlagStore :=
  fun j => if j = i then true else f j

/-- `CancelFlag::clear` — store `CANCEL_FLAG_UNSET`. -/
def FlagStore.clear (f : FlagStore) (i : FlagId) : FlagStore :=
  fun j => if j = i then false else f j

/-- `CancelableParser`: a parser handle carrying its cancel flag
(identified by the flag's id in the `FlagStore`). -/
structure CancelableParser where
  flag : FlagId
  deriving Repr, DecidableEq

/-- `ParsedSyntax` (src/syntax/parse.rs, lines 28-31). -/
structure ParsedSyntax where
  tree : Tree
  text : Rope

/-- `ParserStatus` (src/syntax/parse.rs, lines 22-26): `parsed` is
`none` if the parsing operation has been cancelled. -/
structure ParserStatus where
  task_id : TaskId
  parser : CancelableParser
  parsed : Option ParsedSyntax

/-- Error kinds reachable from `SyntaxTree::spawn_parse_task`. -/
inductive Error where
  | IncompatibleLanguageGrammar
  | TaskSpawn
  deriving Repr, DecidableEq

/-- `SyntaxTree` (src/syntax/parse.rs, lines 33-38): the language
handle is external and not needed by any claim, so it is omitted;
`parsers` is the reusable parser pool (a stack, pushed/popped at the
tail like Rust's `Vec`). -/
structure SyntaxTree where
  parsers : List CancelableParser
  tree : Option Tree
  current_parse_task : Option (TaskId × FlagId)

namespace SyntaxTree

/-- `SyntaxTree::spawn_parse_task` (src/syntax/parse.rs, lines 71-117).
Environment inputs: `set_language_ok` is whether
`Parser::set_language` succeeds when a fresh parser must be
constructed (pool empty); `fresh_flag` is the flag id allocated for
such a fresh parser; `spawn_result` is the outcome of
`scheduler.spawn` (the spawned closure runs asynchronously and its
completion is delivered later as a `ParserStatus`). -/
def spawn_parse_task (s : SyntaxTree) (flags : FlagStore) (set_language_ok : Bool)
    (fresh_flag : FlagId) (spawn_result : Except Error TaskId) :
    Except Error (SyntaxTree × FlagStore) := do
  -- let mut parser = self.parsers.pop() ... or construct a new one
  let (parser, rest) ←
    match s.parsers.getLast? with
    | some p => Except.ok (p, s.parsers.dropLast)
    | none =>
        if set_language_ok then
          Except.ok (CancelableParser.mk fresh_flag, ([] : List CancelableParser))
        else
          Except.error Error.IncompatibleLanguageGrammar
  -- let cancel_flag = parser.cancel_flag().clone()
  let cancel_flag := parser.flag
  -- let task_id = scheduler.spawn(...)?
  let task_id ← spawn_result
  -- if let Some((_, old_cancel_flag)) = current_parse_task { old_cancel_flag.set() }
  let flags' :=
    match s.current_parse_task with
    | some (_, old_cancel_flag) => flags.set old_cancel_flag
    | none => flags
  -- self.current_parse_task = Some((task_id, cancel_flag))
  Except.ok
    ({ s with parsers := rest, current_parse_task := some (task_id, cancel_flag) },
      flags')

/-- `SyntaxTree::handle_parse_syntax_done` (src/syntax/parse.rs, lines
119-146).  The result is `none` when the source's
`assert!(tree.root_node().end_byte() <= text.len_bytes())` fails
(a panic). -/
def handle_parse_syntax_done (s : SyntaxTree) (flags : FlagStore) (status : ParserStatus) :
    Option (SyntaxTree × FlagStore) :=
  -- collect the parser for later reuse: clear its flag, push it
  let flags' := flags.clear status.parser.flag
  let s' : SyntaxTree := { s with parsers := s.parsers ++ [status.parser] }
  -- if we weren't waiting for this task, return
  if (s.current_parse_task.map fun e => e.1 != status.task_id).getD true then
    some (s', flags')
  else
    let s'' : SyntaxTree := { s' with current_parse_task := none }
    -- if the parser task hasn't been cancelled, store the new syntax tree
    match status.parsed with
    | some ps =>
        if ps.tree.root_end_byte ≤ ps.text.len_bytes then
          some ({ s'' with tree := some ps.tree }, flags')
        else
          none
    | none => some (s'', flags')

/-- `SyntaxTree::edit` (src/syntax/parse.rs, lines 148-166). -/
def edit (s : SyntaxTree) (diff : OpaqueDiff) : SyntaxTree :=
  match s.tree with
  | some tree =>
      if !diff.is_empty then
        { s with
          tree := some (tree.applyEdit
            { start_byte := diff.byte_index
              old_end_byte := diff.byte_index + diff.old_length
              new_end_byte := diff.byte_index + diff.new_length
              start_position := TreeSitterPoint.new 0 0
              old_end_position := TreeSitterPoint.new 0 0
              new_end_position := TreeSitterPoint.new 0 0 }) }
      else s
  | none => s

end SyntaxTree

/-! ## SyntaxCursor and NodeTrace (src/syntax/parse.rs, lines 209-273) -/

mutual

/-- The descent induced by repeated
`TreeCursor::goto_first_child_for_byte(byte_index)` calls (external
tree-sitter code): at each node, the cursor moves to the first child
that extends beyond the byte offset (`byte_index < child.end_byte`),
recording that child's ordinal, until no child qualifies.  `descend`
returns the (ordinal, node) pairs visited strictly below `n`, in
root-to-leaf order. -/
def descend (byte_index : Nat) (n : TSNode) : List (Nat × TSNode) :=
  match n with
  | .node _ _ _ _ cs => descendChildren byte_index 0 cs

/-- The scan of a child list performed by
`goto_first_child_for_byte`, starting at ordinal `i`. -/
def descendChildren (byte_index i : Nat) : List TSNode → List (Nat × TSNode)
  | [] => []
  | c :: cs =>
      if byte_index < c.end_byte then
        (i, c) :: descend byte_index c
      else
        descendChildren byte_index (i + 1) cs

end

/-- All nodes visited by the descent from the root, in root-to-leaf
order, paired with the child ordinal by which each was entered (the
root is recorded with ordinal 0). -/
def visitedNodes (byte_index : Nat) (root : TSNode) : List (Nat × TSNode) :=
  (0, root) :: descend byte_index root

/-- The deepest node reached by the `goto_first_child_for_byte`
descent from `root`: the last node visited. -/
def deepestNode (byte_index : Nat) (root : TSNode) : TSNode :=
  (((visitedNodes byte_index root).getLast?).getD (0, root)).2

/-- `NodeTrace` (src/syntax/parse.rs, lines 209-215); `SmallVec` and
`SmallString` become `List` and `String`, and `Range<usize>` becomes a
pair.  The `nth_children` entries are `u16` values in the source
(`SmallVec<[u16; 32]>`), represented as `Nat`s that are always reduced
modulo 2^16 at the point they are pushed (the `nth_child as u16`
truncating cast of parse.rs line 265). -/
structure NodeTrace (T : Type) where
  path : List String
  nth_children : List Nat
  trace : List T
  is_error : Bool
  byte_range : Nat × Nat

/-- `NodeTrace::new`. -/
def NodeTrace.new (T : Type) : NodeTrace T :=
  { path := [], nth_children := [], trace := [], is_error := false, byte_range := (0, 0) }

/-- `NodeTrace::clear` (src/syntax/parse.rs, lines 228-234). -/
def NodeTrace.clear (t : NodeTrace T) : NodeTrace T :=
  { t with
    path := []
    nth_children := []
    trace := []
    is_error := false
    byte_range := (0, 0) }

/-- `SyntaxCursor` (src/syntax/parse.rs, lines 237-240): the root node
and the cursor's current node. -/
structure SyntaxCursor where
  root : TSNode
  cursor : TSNode

mutual

/-- The `while let Some(nth_child) = cursor.goto_first_child_for_byte(..)`
loop of `trace_at`: push kind, mapped payload and ordinal of each
descended-to node, OR-ing the error flags; returns the final cursor
node and the accumulated trace. -/
def traceLoop (byte_index : Nat) (map_node : TSNode → T) (cur : TSNode)
    (t : NodeTrace T) : TSNode × NodeTrace T :=
  match cur with
  | .node _ _ _ _ cs => traceLoopChildren byte_index map_node cur 0 cs t

/-- The scan of the current node's child list performed by
`goto_first_child_for_byte` inside the `trace_at` loop (`cur` is the
node the cursor sits on), starting at ordinal `i`.  The pushed ordinal
is truncated to `u16` (`trace.nth_children.push(nth_child as u16)`,
parse.rs line 265), modelled as reduction modulo 2^16. -/
def traceLoopChildren (byte_index : Nat) (map_node : TSNode → T) (cur : TSNode)
    (i : Nat) : List TSNode → NodeTrace T → TSNode × NodeTrace T
  | [], t => (cur, t)
  | c :: cs, t =>
      if byte_index < c.end_byte then
        traceLoop byte_index map_node c
          { t with
            is_error := t.is_error || c.is_error
            path := t.path ++ [c.kind]
            trace := t.trace ++ [map_node c]
            nth_children := t.nth_children ++ [i % 65536] }
      else
        traceLoopChildren byte_index map_node cur (i + 1) cs t

end

/-- `SyntaxCursor::trace_at` (src/syntax/parse.rs, lines 242-273):
reset the cursor to the root, clear the trace, record the root, run
the descent loop, reverse `trace` and `nth_children`, and set
`byte_range` from the final cursor node.  Returns the updated cursor
and trace. -/
def SyntaxCursor.trace_at (c : SyntaxCursor) (trace : NodeTrace T) (byte_index : Nat)
    (map_node : TSNode → T) : SyntaxCursor × NodeTrace T :=
  -- self.cursor.reset(self.root); trace.clear();
  let cur := c.root
  let t := trace.clear
  -- record the root node
  let t := { t with
    is_error := t.is_error || cur.is_error
    path := t.path ++ [cur.kind]
    trace := t.trace ++ [map_node cur]
    nth_children := t.nth_children ++ [0] }
  -- the goto_first_child_for_byte loop
  let (cur, t) := traceLoop byte_index map_node cur t
  -- trace.trace.reverse(); trace.nth_children.reverse();
  let t := { t with trace := t.trace.reverse, nth_children := t.nth_children.reverse }
  -- trace.byte_range = node.start_byte()..node.end_byte()
  let t := { t with byte_range := (cur.start_byte, cur.end_byte) }
  ({ c with cursor := cur }, t)

/-- Semantic helper: push the kinds, mapped payloads, u16-truncated
ordinals and error flags of a list of (ordinal, node) pairs onto a
trace, in order. -/
def pushNodes (map_node : TSNode → T) (t : NodeTrace T) (l : List (Nat × TSNode)) :
    NodeTrace T :=
  { t with
    path := t.path ++ l.map fun p => p.2.kind
    trace := t.trace ++ l.map fun p => map_node p.2
    nth_children := t.nth_children ++ l.map fun p => p.1 % 65536
    is_error := t.is_error || l.any fun p => p.2.is_error }

/-- Semantic helper: the node component of the last element of a
descent chain, or `cur` when the chain is empty. -/
def chainFinal (cur : TSNode) (l : List (Nat × TSNode)) : TSNode :=
  (l.getLast?.getD (0, cur)).2

/-! ## Mode resolution (src/mode.rs)

File names are modelled as `Option (List Char)`: the result of
`path.file_name().and_then(OsStr::to_str)` (`none` when the path has no
file name or it is not valid UTF-8), with string content as a character
list. -/

/-- `FilenamePattern` (src/mode.rs, lines 52-55). -/
inductive FilenamePattern where
  | suffix (s : List Char)
  | name (s : List Char)
  deriving Repr, DecidableEq

/-- `FilenamePattern::matches` (src/mode.rs, lines 66-81): a `Suffix`
pattern matches when the file name ends with it; a `Name` pattern
matches when the file name equals it; both fail when there is no
(UTF-8) file name. -/
def FilenamePattern.matches : FilenamePattern → Option (List Char) → Bool
  | .suffix suf, some fname => suf.isSuffixOf fname
  | .name expected, some fname => fname == expected
  | _, none => false

/-- `Mode` (src/mode.rs, lines 13-17); the `parser` field's language
and highlight rules are external handles, so only its presence is
kept. -/
structure Mode where
  name : String
  file : List FilenamePattern
  hasParser : Bool
  deriving Repr, DecidableEq

/-- `Mode::matches_by_filename` (src/mode.rs, lines 35-39). -/
def Mode.matches_by_filename (m : Mode) (filename : Option (List Char)) : Bool :=
  m.file.any fun p => p.matches filename

/-- `FilenamePattern::suffix` smart constructor applied to a string
literal. -/
def sfx (s : String) : FilenamePattern :=
  FilenamePattern.suffix s.data

/-- `FilenamePattern::name` smart constructor applied to a string
literal. -/
def npat (s : String) : FilenamePattern :=
  FilenamePattern.name s.data

/-- `PLAIN_TEXT_MODE` (src/mode.rs, line 240): `Mode::default()`. -/
def PLAIN_TEXT_MODE : Mode :=
  { name := "Plain", file := [], hasParser := false }

/-- `LANGUAGE_MODES` (src/mode.rs, lines 91-238), in source order. -/
def LANGUAGE_MODES : List Mode :=
  [ { name := "Shell Script", file := [sfx ".sh"], hasParser := true }
  , { name := "Rust", file := [sfx ".rs"], hasParser := true }
  , { name := "Python"
    , file := [sfx ".py", sfx ".py3", sfx ".py2", sfx ".pyi", sfx ".pyx", sfx ".pyx.in"
              , sfx ".pxd", sfx ".pxd.in", sfx ".pxi", sfx ".pxi.in", sfx ".rpy", sfx ".cpy"]
    , hasParser := true }
  , { name := "Javascript", file := [sfx ".js"], hasParser := true }
  , { name := "HTML", file := [sfx ".html", sfx ".htm", sfx ".xhtml", sfx ".shtml"]
    , hasParser := true }
  , { name := "JSON", file := [sfx ".json", sfx ".jsonl"], hasParser := true }
  , { name := "C", file := [sfx ".c", sfx ".h"], hasParser := true }
  , { name := "C++"
    , file := [sfx ".cpp", sfx ".cc", sfx ".cp", sfx ".cxx", sfx ".c++", sfx ".C", sfx ".h"
              , sfx ".hh", sfx ".hpp", sfx ".hxx", sfx ".h++", sfx ".inl", sfx ".ipp"]
    , hasParser := true }
  , { name := "CSS", file := [sfx ".css"], hasParser := true }
  , { name := "Markdown", file := [sfx ".md"], hasParser := true }
  , { name := "Typescript", file := [sfx ".ts"], hasParser := true }
  , { name := "Typescript TSX", file := [sfx ".tsx"], hasParser := true }
  , { name := "Dockerfile", file := [npat "Dockerfile"], hasParser := false }
  , { name := "Go", file := [sfx ".go"], hasParser := true }
  ]

/-- `find_by_filename` (src/mode.rs, lines 84-89): the first mode in
`LANGUAGE_MODES` matching the file name, defaulting to
`PLAIN_TEXT_MODE`. -/
def find_by_filename (filename : Option (List Char)) : Mode :=
  (LANGUAGE_MODES.find? fun m => m.matches_by_filename filename).getD PLAIN_TEXT_MODE

/-- The suffix-pattern payloads of a mode. -/
def Mode.suffixPats (m : Mode) : List (List Char) :=
  m.file.filterMap fun p =>
    match p with
    | .suffix s => some s
    | _ => none

/-- The exact-name-pattern payloads of a mode. -/
def Mode.namePats (m : Mode) : List (List Char) :=
  m.file.filterMap fun p =>
    match p with
    | .name s => some s
    | _ => none

/-- Mode `m` exact-matches file name `f`. -/
def specExactMatch (f : List Char) (m : Mode) : Prop :=
  ∃ n ∈ m.namePats, f = n

/-- Pattern `s` of mode `m` suffix-matches file name `f`. -/
def specSuffixMatch (f : List Char) (m : Mode) (s : List Char) : Prop :=
  s ∈ m.suffixPats ∧ s <:+ f

instance (f : List Char) (m : Mode) : Decidable (specExactMatch f m) := by
  unfold specExactMatch
  infer_instance

instance (f : List Char) (m : Mode) (s : List Char) : Decidable (specSuffixMatch f m s) := by
  unfold specSuffixMatch
  infer_instance

/-- Modelled from the spec: the mode-selection policy as stated in the
specification's words ("by exact filename first, then by longest suffix
match; default is a plain-text mode"), to be compared with the source's
`find_by_filename`.  `m` is a spec-conformant choice for file name
`f?` when: if some mode exact-matches, `m` is a mode that
exact-matches; otherwise, if some mode suffix-matches, `m` is a mode
with a matching suffix pattern of maximal length among all matching
suffix patterns of all modes; otherwise `m` is the plain-text mode. -/
def IsSpecChoice (f? : Option (List Char)) (m : Mode) : Prop :=
  match f? with
  | none => m = PLAIN_TEXT_MODE
  | some f =>
      if ∃ m' ∈ LANGUAGE_MODES, ∃ n ∈ m'.namePats, f = n then
        m ∈ LANGUAGE_MODES ∧ specExactMatch f m
      else if ∃ m' ∈ LANGUAGE_MODES, ∃ s ∈ m'.suffixPats, s <:+ f then
        m ∈ LANGUAGE_MODES ∧
          ∃ s, specSuffixMatch f m s ∧
            ∀ m' ∈ LANGUAGE_MODES, ∀ s', specSuffixMatch f m' s' → s'.length ≤ s.length
      else
        m = PLAIN_TEXT_MODE

/-! ## Editor and open_file (core/src/editor/mod.rs) -/

/-- File paths, as opaque strings. -/
abbrev FilePath' := String

/-- Error kinds of `crate::error::Error` reachable from `open_file`
(spec §7): `Io` carries the OS error; `InvalidUtf8` is a failed UTF-8
validation in `Rope::from_reader`. -/
inductive FileError where
  | Io (permissionDenied : Bool)
  | InvalidUtf8
  deriving Repr, DecidableEq

/-- Display string of a `FileError` (`error.to_string()`), abstracted. -/
def FileError.message : FileError → String
  | .Io _ => "io error"
  | .InvalidUtf8 => "invalid utf-8"

/-- The state of one path in the file system, as observed by
`open_file`: `readable` means `file_path.exists()` returns true and
`Rope::from_reader(File::open(..))` produces the given result (rope
content, an I/O failure, or an `InvalidUtf8` failure); `absent` means
`exists()` returns false and `File::open` fails with `NotFound`;
`inaccessible` means `exists()` returns false and `File::open` fails
with the given non-`NotFound` error. -/
inductive FsFile where
  | readable (result : Except FileError Rope)
  | absent
  | inaccessible (error : FileError)

/-- A file system: what each path contains. -/
abbrev FileSystem := FilePath' → FsFile

/-- Modelled from the spec: one open buffer of the editor's buffer
collection (`editor::buffer` is not under `src/`): its id, optional
file path, rope content and optional VCS repository handle. -/
structure OpenBuffer where
  id : Nat
  file_path : Option FilePath'
  content : Rope
  repo : Option Unit

/-- Modelled from the spec: the collection of open buffers
(`editor::buffer::Buffers`, not under `src/`), with a counter for
fresh buffer ids. -/
structure Buffers where
  entries : List OpenBuffer
  next_id : Nat

/-- Modelled from the spec: `Buffers::find_by_path` — the id of an
already-open buffer with the given file path, if any. -/
def Buffers.find_by_path (bs : Buffers) (p : FilePath') : Option Nat :=
  (bs.entries.find? fun b => b.file_path == some p).map fun b => b.id

/-- Modelled from the spec: `Buffers::add` — append a new buffer with
the given content, path and repository handle, returning its fresh
id. -/
def Buffers.add (bs : Buffers) (text : Rope) (p : Option FilePath') (repo : Option Unit) :
    Nat × Buffers :=
  (bs.next_id,
    { entries := bs.entries ++ [{ id := bs.next_id, file_path := p, content := text, repo := repo }]
      next_id := bs.next_id + 1 })

/-- `BufferViewId` (core/src/editor/mod.rs, lines 106-119). -/
structure BufferViewId where
  buffer_id : Nat
  cursor_id : Nat
  deriving Repr, DecidableEq

/-- Modelled from the spec: the window tree (`editor::windows`, not
under `src/`) — the set of buffer views and the focused one.
`add` appends a view and focuses it; `set_focused` only changes the
focus. -/
structure WindowTree where
  views : List BufferViewId
  focused : Option BufferViewId

def WindowTree.is_empty (w : WindowTree) : Bool :=
  w.views.isEmpty

def WindowTree.add (w : WindowTree) (v : BufferViewId) : WindowTree :=
  { views := w.views ++ [v], focused := some v }

def WindowTree.set_focused (w : WindowTree) (v : BufferViewId) : WindowTree :=
  { w with focused := some v }

/-- The `Editor` state relevant to `open_file`: the buffer collection
and the window tree (core/src/editor/mod.rs, lines 92-104). -/
structure EditorState where
  buffers : Buffers
  windows : WindowTree

/-- `Editor::focus_on_buffer` (core/src/editor/mod.rs, lines 132-141):
add a view when the window tree is empty, otherwise re-focus; the
cursor id is `CursorId::default()` (0). -/
def focus_on_buffer (ed : EditorState) (buffer_id : Nat) : EditorState :=
  if ed.windows.is_empty then
    { ed with windows := ed.windows.add { buffer_id := buffer_id, cursor_id := 0 } }
  else
    { ed with windows := ed.windows.set_focused { buffer_id := buffer_id, cursor_id := 0 } }

/-- `Editor::open_file` (core/src/editor/mod.rs, lines 143-192).
`fs` is the file system; `repo` is the outcome of
`Repository::discover(&file_path).ok()` (external VCS probe).  Returns
`is_new_file` on success. -/
def open_file (ed : EditorState) (fs : FileSystem) (repo : Option Unit)
    (file_path : FilePath') : Except FileError (EditorState × Bool) := do
  -- check if the buffer is already open
  match ed.buffers.find_by_path file_path with
  | some buffer_id => Except.ok (focus_on_buffer ed buffer_id, false)
  | none => do
      let (is_new_file, text) ←
        match fs file_path with
        | .readable r => do
            -- file_path.exists(): Rope::from_reader(BufReader::new(File::open(..)?))?
            let text ← r
            Except.ok (false, text)
        | .absent =>
            -- File::open fails with NotFound: "[New file]", empty rope
            Except.ok (true, Rope.new)
        | .inaccessible e =>
            -- File::open fails with PermissionDenied or another error
            Except.error e
      -- store the new buffer, then focus on it
      let (buffer_id, buffers') := ed.buffers.add text (some file_path) repo
      Except.ok (focus_on_buffer { ed with buffers := buffers' } buffer_id, is_new_file)

/-- The prompt-area outcome of handling `Message::OpenFile`. -/
inductive PromptAction where
  | none
  | log (message : String)
  deriving Repr, DecidableEq

/-- The `Message::OpenFile(path)` arm of `Editor::update`
(core/src/editor/mod.rs, lines 243-259): run `open_file` and surface
its outcome as the prompt action (a log message on error or for a new
file). -/
def update_open_file (ed : EditorState) (fs : FileSystem) (repo : Option Unit)
    (file_path : FilePath') : EditorState × PromptAction :=
  match open_file ed fs repo file_path with
  | .error e => (ed, .log ("Could not open file: " ++ e.message))
  | .ok (ed', true) => (ed', .log "[New file]")
  | .ok (ed', false) => (ed', .none)

/-! ## Buffer view scroll logic (core/src/components/buffer/mod.rs) -/

/-- `Buffer::ensure_cursor_in_view` (core/src/components/buffer/mod.rs,
lines 119-131), as a function of the cursor's current line, the frame
height and the previous `line_offset`, returning the new `line_offset`.
`num_lines = frame.size.height.saturating_sub(1)`; Nat subtraction is
saturating, matching `usize::saturating_sub` (the other subtractions in
the source are guarded against underflow by the branch conditions). -/
def ensure_cursor_in_view (current_line height line_offset : Nat) : Nat :=
  let num_lines := height - 1
  if current_line < line_offset then
    current_line
  else if current_line - line_offset > num_lines - 1 then
    current_line + 1 - num_lines
  else
    line_offset

/-- `Buffer::center_visual_cursor` (core/src/components/buffer/mod.rs,
lines 133-147), as a function of the cursor's line index, the frame
height and the previous `line_offset`, returning the new `line_offset`. -/
def center_visual_cursor (line_index height line_offset : Nat) : Nat :=
  if line_index ≥ height / 2 ∧ line_offset ≠ line_index - height / 2 then
    line_index - height / 2
  else if line_offset ≠ line_index then
    line_index
  else
    0

/-! ## Concrete example states used by witnesses and counterexamples -/

/-- A two-level syntax tree: a root of kind `a` with one child of kind
`b`, both spanning bytes 0..2. -/
def exTSNode : TSNode :=
  TSNode.node "a" false 0 2 [TSNode.node "b" false 0 2 []]

/-- A one-node parse tree spanning bytes 0..1 with an empty edit log. -/
def exTree : Tree :=
  { root := TSNode.node "a" false 0 1 [], edits := [] }

/-- A `SyntaxTree` state holding a cached tree, no pool, no task. -/
def exSyntaxState : SyntaxTree :=
  { parsers := [], tree := some exTree, current_parse_task := none }

/-- A `SyntaxTree` state with no cached tree, awaiting task 1 whose
cancel flag is flag 0, with parser flag 5 in the pool. -/
def exAwaitingState : SyntaxTree :=
  { parsers := [CancelableParser.mk 5], tree := none, current_parse_task := some (1, 0) }

/-- A flag store with every cancel flag set. -/
def exFlagsAllSet : FlagStore :=
  fun _ => true

/-- A completion for task 1, returning parser flag 2, carrying a
parsed tree whose root ends at byte 1 with a 1-byte text snapshot. -/
def exStatus : ParserStatus :=
  { task_id := 1
    parser := CancelableParser.mk 2
    parsed := some { tree := exTree, text := { bytes := [65] } } }

/-- The state/flag pair produced by delivering `exStatus` to
`exAwaitingState`. -/
def exHandled : SyntaxTree × FlagStore :=
  ((exAwaitingState.handle_parse_syntax_done exFlagsAllSet exStatus).getD
    (exAwaitingState, exFlagsAllSet))

/-- The state/flag pair produced by a successful `spawn_parse_task`
from `exAwaitingState` (new task id 7). -/
def exSpawned : SyntaxTree × FlagStore :=
  ((exAwaitingState.spawn_parse_task exFlagsAllSet true 9 (Except.ok 7)).toOption.getD
    (exAwaitingState, exFlagsAllSet))

/-- An editor state with one open buffer on path `a.txt` and one
window viewing it. -/
def exEditor : EditorState :=
  { buffers :=
      { entries := [{ id := 0, file_path := some "a.txt", content := Rope.new, repo := none }]
        next_id := 1 }
    windows :=
      { views := [{ buffer_id := 0, cursor_id := 0 }]
        focused := some { buffer_id := 0, cursor_id := 0 } } }

/-- A file system where `a.txt` is empty and readable, `bad.bin` is
not valid UTF-8, and every other path is absent. -/
def exFs : FileSystem := fun p =>
  if p = "a.txt" then FsFile.readable (Except.ok Rope.new)
  else if p = "bad.bin" then FsFile.readable (Except.error FileError.InvalidUtf8)
  else FsFile.absent

/-! # Theorems -/

/-- C8: `OpaqueDiff::empty()` has all three fields zero; `is_empty`
holds exactly when all three fields are zero; `reverse` preserves
`byte_index` and swaps `old_length` with `new_length`, so `reverse` is
an involution and fixes `empty()`. -/
theorem opaqueDiff_empty_is_empty_reverse :
    (OpaqueDiff.empty =
      { byte_index := 0, old_length := 0, new_length := 0 }) ∧
    (∀ d : OpaqueDiff, d.is_empty = true ↔
      d.byte_index = 0 ∧ d.old_length = 0 ∧ d.new_length = 0) ∧
    (∀ d : OpaqueDiff, d.reverse.byte_index = d.byte_index ∧
      d.reverse.old_length = d.new_length ∧ d.reverse.new_length = d.old_length) ∧
    (∀ d : OpaqueDiff, d.reverse.reverse = d) ∧
    (OpaqueDiff.empty.reverse = OpaqueDiff.empty) := by
  refine ⟨rfl, ?_, ?_, ?_, rfl⟩
  · intro d
    simp [OpaqueDiff.is_empty, Bool.and_eq_true, beq_iff_eq, and_assoc]
  · intro d
    exact ⟨rfl, rfl, rfl⟩
  · intro d
    rfl

/-- C7: `SyntaxTree::edit(diff)` applies to the cached tree — exactly
when one exists and the diff is non-empty — the single `InputEdit`
with `start_byte = byte_index`, `old_end_byte = byte_index +
old_length`, `new_end_byte = byte_index + new_length` and all
row/column positions zero; when no cached tree exists or the diff is
empty, the state is unchanged. -/
theorem syntaxTree_edit_characterization (s : SyntaxTree) (d : OpaqueDiff) :
    (∀ t, s.tree = some t → d.is_empty = false →
      (s.edit d).tree = some (t.applyEdit
        { start_byte := d.byte_index
          old_end_byte := d.byte_index + d.old_length
          new_end_byte := d.byte_index + d.new_length
          start_position := TreeSitterPoint.new 0 0
          old_end_position := TreeSitterPoint.new 0 0
          new_end_position := TreeSitterPoint.new 0 0 }) ∧
      (s.edit d).parsers = s.parsers ∧
      (s.edit d).current_parse_task = s.current_parse_task) ∧
    (s.tree = none → s.edit d = s) ∧
    (d.is_empty = true → s.edit d = s) := by
  refine ⟨?_, ?_, ?_⟩
  · intro t ht hd
    simp [SyntaxTree.edit, ht, hd]
  · intro ht
    simp [SyntaxTree.edit, ht]
  · intro hd
    cases ht : s.tree with
    | none => simp [SyntaxTree.edit, ht]
    | some t => simp [SyntaxTree.edit, ht, hd]

/-- C7 witness: the characterization applied to a concrete state with
a cached tree and the non-empty diff (2, 1, 3), to a concrete state
with no cached tree, and to the empty diff. -/
theorem syntaxTree_edit_characterization_witness :
    ((exSyntaxState.edit (OpaqueDiff.new 2 1 3)).tree = some (exTree.applyEdit
      { start_byte := 2
        old_end_byte := 3
        new_end_byte := 5
        start_position := TreeSitterPoint.new 0 0
        old_end_position := TreeSitterPoint.new 0 0
        new_end_position := TreeSitterPoint.new 0 0 }) ∧
      (exSyntaxState.edit (OpaqueDiff.new 2 1 3)).parsers = exSyntaxState.parsers ∧
      (exSyntaxState.edit (OpaqueDiff.new 2 1 3)).current_parse_task =
        exSyntaxState.current_parse_task) ∧
    (SyntaxTree.mk [] none none).edit (OpaqueDiff.new 2 1 3) = SyntaxTree.mk [] none none ∧
    exSyntaxState.edit OpaqueDiff.empty = exSyntaxState :=
  ⟨(syntaxTree_edit_characterization exSyntaxState (OpaqueDiff.new 2 1 3)).1 exTree rfl rfl,
    (syntaxTree_edit_characterization (SyntaxTree.mk [] none none) (OpaqueDiff.new 2 1 3)).2.1 rfl,
    (syntaxTree_edit_characterization exSyntaxState OpaqueDiff.empty).2.2 rfl⟩

/-- C5 counterexample: with the cursor on line 5 and a frame of
height 4 starting from `line_offset = 0`, the first two invocations of
`center_visual_cursor` produce `max 0 (5 − 4/2) = 3` and `5` as the
claim states, but the third produces 3 again, not 0: the function
alternates with period 2 and never resets to 0 while the cursor line
is at or below the centre. -/
theorem center_visual_cursor_not_three_cycle :
    center_visual_cursor 5 4 0 = max 0 (5 - 4 / 2) ∧
    center_visual_cursor 5 4 (center_visual_cursor 5 4 0) = 5 ∧
    center_visual_cursor 5 4 (center_visual_cursor 5 4 (center_visual_cursor 5 4 0)) ≠ 0 := by
  decide

/-- C5 (amended): with the cursor fixed on line L and a frame of
height H, `center_visual_cursor` alternates `line_offset` with period
2 rather than cycling through three values: when `H/2 ≥ 1` and
`L ≥ H/2`, consecutive invocations produce `L − H/2`, `L`, `L − H/2`;
the reset to 0 occurs only when `L < H/2` or `H/2 = 0`, in which case
consecutive invocations produce `L`, `0`, `L`. -/
theorem center_visual_cursor_alternates (L H O : Nat) :
    (1 ≤ H / 2 → H / 2 ≤ L → O ≠ L - H / 2 →
      center_visual_cursor L H O = L - H / 2 ∧
      center_visual_cursor L H (L - H / 2) = L ∧
      center_visual_cursor L H L = L - H / 2) ∧
    ((H / 2 = 0 ∨ L < H / 2) → O ≠ L →
      center_visual_cursor L H O = L ∧
      center_visual_cursor L H L = 0 ∧
      center_visual_cursor L H 0 = L) := by
  constructor
  · intro h1 h2 h3
    refine ⟨?_, ?_, ?_⟩ <;>
      · simp only [center_visual_cursor, ge_iff_le]
        split_ifs <;> omega
  · intro h1 h2
    refine ⟨?_, ?_, ?_⟩ <;>
      · simp only [center_visual_cursor, ge_iff_le]
        split_ifs <;> omega

/-- C5 witness: the amended behaviour at (L, H) = (5, 4) from offset 0
(cursor at or below centre) and at (L, H) = (1, 4) from offset 0
(cursor above centre). -/
theorem center_visual_cursor_alternates_witness :
    (center_visual_cursor 5 4 0 = 5 - 4 / 2 ∧
      center_visual_cursor 5 4 (5 - 4 / 2) = 5 ∧
      center_visual_cursor 5 4 5 = 5 - 4 / 2) ∧
    (center_visual_cursor 1 4 0 = 1 ∧
      center_visual_cursor 1 4 1 = 0 ∧
      center_visual_cursor 1 4 0 = 1) :=
  ⟨(center_visual_cursor_alternates 5 4 0).1 (by decide) (by decide) (by decide),
    (center_visual_cursor_alternates 1 4 0).2 (by decide) (by decide)⟩

/-- C6 counterexample: on a frame of height 1 the text area has
`1 − 1 = 0` visible rows; with the cursor on line 7 of an 8-line rope
and `line_offset = 5`, `ensure_cursor_in_view` sets `line_offset = 8`,
the cursor line lies outside the empty interval [8, 8), and the rope
does not have fewer lines than fill the (zero-row) view — so the
claimed invariant fails for frames with no text row. -/
theorem ensure_cursor_in_view_degenerate_frame :
    ensure_cursor_in_view 7 1 5 = 8 ∧
    ¬ ((ensure_cursor_in_view 7 1 5 ≤ 7 ∧
        7 < ensure_cursor_in_view 7 1 5 + (1 - 1)) ∨
      (8 : Nat) < 1 - 1) := by
  decide

/-- C6 (amended): after `ensure_cursor_in_view`, provided the frame
has at least one text row (height ≥ 2, so `visible_rows = height − 1
≥ 1`), the cursor's line lies in
`[line_offset, line_offset + visible_rows)` — unconditionally, with
no exception needed for short ropes. -/
theorem ensure_cursor_in_view_bounds (L H O : Nat) (h : 2 ≤ H) :
    ensure_cursor_in_view L H O ≤ L ∧
    L < ensure_cursor_in_view L H O + (H - 1) := by
  simp only [ensure_cursor_in_view]
  split_ifs <;> omega

/-- C6 witness: the scroll bounds at cursor line 7, frame height 3,
previous offset 5. -/
theorem ensure_cursor_in_view_bounds_witness :
    ensure_cursor_in_view 7 3 5 ≤ 7 ∧
    7 < ensure_cursor_in_view 7 3 5 + (3 - 1) :=
  ensure_cursor_in_view_bounds 7 3 5 (by decide)

/-- C1: every (non-panicking) call to `handle_parse_syntax_done`
pushes the returning parser into the pool and clears its cancel flag,
regardless of the task id; if the completed task id is not the
currently awaited one (or no task is outstanding), the cached tree and
`current_parse_task` are unchanged; otherwise `current_parse_task` is
cleared and, if the payload is present, its tree is installed and
satisfies `root.end_byte ≤ text.len_bytes`. -/
theorem handle_parse_syntax_done_characterization
    (s : SyntaxTree) (flags : FlagStore) (status : ParserStatus)
    (s' : SyntaxTree) (flags' : FlagStore)
    (h : s.handle_parse_syntax_done flags status = some (s', flags')) :
    s'.parsers = s.parsers ++ [status.parser] ∧
    flags' status.parser.flag = false ∧
    ((match s.current_parse_task with
      | some (tid, _) => tid ≠ status.task_id
      | none => True) →
      s'.tree = s.tree ∧ s'.current_parse_task = s.current_parse_task) ∧
    (∀ fl, s.current_parse_task = some (status.task_id, fl) →
      s'.current_parse_task = none ∧
      (∀ ps, status.parsed = some ps →
        s'.tree = some ps.tree ∧ ps.tree.root_end_byte ≤ ps.text.len_bytes) ∧
      (status.parsed = none → s'.tree = s.tree)) := by
  simp only [SyntaxTree.handle_parse_syntax_done] at h
  cases hc : s.current_parse_task with
  | none =>
      rw [hc] at h
      simp only [Option.map_none', Option.getD_none, if_true] at h
      obtain ⟨hs, hf⟩ := Prod.mk.injEq .. ▸ Option.some.injEq .. ▸ h
      subst hs hf
      refine ⟨rfl, by simp [FlagStore.clear], fun _ => ⟨rfl, by simp [hc]⟩, ?_⟩
      intro fl hfl
      exact absurd hfl (by simp)
  | some e =>
      obtain ⟨tid, fl0⟩ := e
      rw [hc] at h
      by_cases heq : tid = status.task_id
      · subst heq
        simp only [Option.map_some', Option.getD_some, bne_self_eq_false,
          Bool.false_eq_true, if_false] at h
        split at h
        next ps hps =>
          split at h
          next hle =>
            simp only [Option.some.injEq, Prod.mk.injEq] at h
            obtain ⟨hs, hf⟩ := h
            subst hs hf
            refine ⟨rfl, by simp [FlagStore.clear], ?_, ?_⟩
            · intro hmatch
              exact absurd rfl hmatch
            · intro fl hfl
              refine ⟨rfl, ?_, fun hnone => by rw [hnone] at hps; cases hps⟩
              intro ps' hps'
              rw [hps] at hps'
              cases hps'
              exact ⟨rfl, hle⟩
          next hle => cases h
        next hps =>
          simp only [Option.some.injEq, Prod.mk.injEq] at h
          obtain ⟨hs, hf⟩ := h
          subst hs hf
          refine ⟨rfl, by simp [FlagStore.clear], ?_, ?_⟩
          · intro hmatch
            exact absurd rfl hmatch
          · intro fl hfl
            refine ⟨rfl, ?_, fun _ => rfl⟩
            intro ps' hps'
            rw [hps] at hps'
            cases hps'
      · have hbne : (tid != status.task_id) = true := by
          simp [bne_iff_ne, heq]
        simp only [Option.map_some', Option.getD_some, hbne, if_true] at h
        simp only [Option.some.injEq, Prod.mk.injEq] at h
        obtain ⟨hs, hf⟩ := h
        subst hs hf
        refine ⟨rfl, by simp [FlagStore.clear], fun _ => ⟨rfl, by simp [hc]⟩, ?_⟩
        intro fl hfl
        simp only [Option.some.injEq, Prod.mk.injEq] at hfl
        exact absurd hfl.1 heq

/-- C1 witness: delivering the completion of the awaited task 1 with a
1-byte tree and 1-byte snapshot to a state awaiting task 1: the parser
(flag 2) is pooled, its flag cleared, the task cleared and the tree
installed. -/
theorem handle_parse_syntax_done_characterization_witness :
    exHandled.1.parsers = exAwaitingState.parsers ++ [exStatus.parser] ∧
    exHandled.2 exStatus.parser.flag = false ∧
    exHandled.1.current_parse_task = none ∧
    exHandled.1.tree = some exTree := by
  have h : exAwaitingState.handle_parse_syntax_done exFlagsAllSet exStatus =
      some (exHandled.1, exHandled.2) := rfl
  obtain ⟨h1, h2, _, h4⟩ :=
    handle_parse_syntax_done_characterization _ _ _ _ _ h
  obtain ⟨h5, h6, _⟩ := h4 0 rfl
  exact ⟨h1, h2, h5,
    (h6 { tree := exTree, text := { bytes := [65] } } rfl).1⟩

/-- C2: a `SyntaxTree` holds at most one outstanding parse task
(`current_parse_task` is a single optional pair), and every successful
call to `spawn_parse_task` records exactly the new task's id paired
with the used parser's cancel flag (the pool's last parser, or a fresh
one when the pool is empty), having set the cancel flag of the
previously outstanding task when one existed. -/
theorem spawn_parse_task_cancels_previous
    (s : SyntaxTree) (flags : FlagStore) (set_language_ok : Bool) (ff : FlagId)
    (sr : Except Error TaskId) (s' : SyntaxTree) (flags' : FlagStore)
    (h : s.spawn_parse_task flags set_language_ok ff sr = .ok (s', flags')) :
    (∃ tid, sr = .ok tid ∧
      ((∃ p, s.parsers.getLast? = some p ∧ s'.parsers = s.parsers.dropLast ∧
          s'.current_parse_task = some (tid, p.flag)) ∨
        (s.parsers = [] ∧ s'.parsers = [] ∧
          s'.current_parse_task = some (tid, ff)))) ∧
    (∀ otid ofl, s.current_parse_task = some (otid, ofl) → flags' ofl = true) := by
  simp only [SyntaxTree.spawn_parse_task] at h
  cases hp : s.parsers.getLast? with
  | some p =>
      rw [hp] at h
      cases hsr : sr with
      | error e => rw [hsr] at h; cases h
      | ok tid =>
          rw [hsr] at h
          cases hc : s.current_parse_task with
          | none =>
              rw [hc] at h
              simp only [bind, Except.bind, Except.ok.injEq, Prod.mk.injEq] at h
              obtain ⟨hs, hf⟩ := h
              subst hs hf
              refine ⟨⟨tid, rfl, Or.inl ⟨p, rfl, rfl, rfl⟩⟩, ?_⟩
              intro otid ofl hofl
              exact absurd hofl (by simp)
          | some e =>
              obtain ⟨otid0, ofl0⟩ := e
              rw [hc] at h
              simp only [bind, Except.bind, Except.ok.injEq, Prod.mk.injEq] at h
              obtain ⟨hs, hf⟩ := h
              subst hs hf
              refine ⟨⟨tid, rfl, Or.inl ⟨p, rfl, rfl, rfl⟩⟩, ?_⟩
              intro otid ofl hofl
              simp only [Option.some.injEq, Prod.mk.injEq] at hofl
              rw [← hofl.2]
              simp [FlagStore.set]
  | none =>
      rw [hp] at h
      cases hok : set_language_ok with
      | false => rw [hok] at h; simp [bind, Except.bind] at h
      | true =>
          rw [hok] at h
          simp only [if_true] at h
          cases hsr : sr with
          | error e => rw [hsr] at h; cases h
          | ok tid =>
              rw [hsr] at h
              have hnil : s.parsers = [] := List.getLast?_eq_none_iff.mp hp
              cases hc : s.current_parse_task with
              | none =>
                  rw [hc] at h
                  simp only [bind, Except.bind, Except.ok.injEq, Prod.mk.injEq] at h
                  obtain ⟨hs, hf⟩ := h
                  subst hs hf
                  refine ⟨⟨tid, rfl, Or.inr ⟨hnil, rfl, rfl⟩⟩, ?_⟩
                  intro otid ofl hofl
                  exact absurd hofl (by simp)
              | some e =>
                  obtain ⟨otid0, ofl0⟩ := e
                  rw [hc] at h
                  simp only [bind, Except.bind, Except.ok.injEq, Prod.mk.injEq] at h
                  obtain ⟨hs, hf⟩ := h
                  subst hs hf
                  refine ⟨⟨tid, rfl, Or.inr ⟨hnil, rfl, rfl⟩⟩, ?_⟩
                  intro otid ofl hofl
                  simp only [Option.some.injEq, Prod.mk.injEq] at hofl
                  rw [← hofl.2]
                  simp [FlagStore.set]

/-- C2 witness: spawning task 7 from a state awaiting task 1 (whose
flag is 0) with parser flag 5 in the pool: the popped parser's flag is
recorded with the new task id and the previous task's flag 0 is set. -/
theorem spawn_parse_task_cancels_previous_witness :
    exSpawned.1.current_parse_task = some (7, 5) ∧
    exSpawned.2 0 = true := by
  have h : exAwaitingState.spawn_parse_task exFlagsAllSet true 9 (Except.ok 7) =
      .ok (exSpawned.1, exSpawned.2) := rfl
  obtain ⟨⟨tid, htid, hcase⟩, hset⟩ :=
    spawn_parse_task_cancels_previous _ _ _ _ _ _ _ h
  refine ⟨?_, hset 1 0 rfl⟩
  cases hcase with
  | inl hl =>
      obtain ⟨p, hp1, _, hp3⟩ := hl
      have hp5 : CancelableParser.mk 5 = p := by
        simpa [exAwaitingState] using hp1
      cases htid
      rw [hp3, ← hp5]
  | inr hr =>
      exact absurd hr.1 (by simp [exAwaitingState])

theorem pushNodes_nil (f : TSNode → T) (t : NodeTrace T) : pushNodes f t [] = t := by
  simp [pushNodes]

theorem pushNodes_push (f : TSNode → T) (t : NodeTrace T) (i : Nat) (c : TSNode)
    (l : List (Nat × TSNode)) :
    pushNodes f
      { path := t.path ++ [c.kind], nth_children := t.nth_children ++ [i % 65536]
        trace := t.trace ++ [f c], is_error := t.is_error || c.is_error
        byte_range := t.byte_range } l =
      pushNodes f t ((i, c) :: l) := by
  simp [pushNodes, List.append_assoc, Bool.or_assoc]

theorem chainFinal_cons (cur c : TSNode) (i : Nat) (l : List (Nat × TSNode)) :
    chainFinal cur ((i, c) :: l) = chainFinal c l := by
  cases l with
  | nil => rfl
  | cons x xs =>
      simp only [chainFinal, List.getLast?_cons_cons]
      cases hx : (x :: xs).getLast? with
      | none => exact absurd (List.getLast?_eq_none_iff.mp hx) (by simp)
      | some q => simp

/-- The `trace_at` descent loop appends exactly the kinds, payloads,
ordinals and error flags of the descent chain, and stops on its last
node. -/
theorem traceLoop_spec (b : Nat) (f : TSNode → T) :
    (∀ cur t, traceLoop b f cur t =
      (chainFinal cur (descend b cur), pushNodes f t (descend b cur))) ∧
    (∀ cur i cs t, traceLoopChildren b f cur i cs t =
      (chainFinal cur (descendChildren b i cs),
        pushNodes f t (descendChildren b i cs))) := by
  refine traceLoop.mutual_induct b f
    (fun cur t => traceLoop b f cur t =
      (chainFinal cur (descend b cur), pushNodes f t (descend b cur)))
    (fun cur i cs t => traceLoopChildren b f cur i cs t =
      (chainFinal cur (descendChildren b i cs),
        pushNodes f t (descendChildren b i cs)))
    ?_ ?_ ?_ ?_
  · intro t k e sb eb cs ih
    simpa [traceLoop, descend] using ih
  · intro cur i t
    simp [traceLoopChildren, descendChildren, chainFinal, pushNodes_nil]
  · intro cur i c cs t hlt ih
    simp only [traceLoopChildren, if_pos hlt, descendChildren]
    rw [ih, pushNodes_push, chainFinal_cons]
  · intro cur i c cs t hlt ih
    simp only [traceLoopChildren, descendChildren, if_neg hlt]
    exact ih

/-- The last visited node of the descent from `root` is `deepestNode`. -/
theorem chainFinal_descend (b : Nat) (root : TSNode) :
    chainFinal root (descend b root) = deepestNode b root := by
  cases hl : descend b root with
  | nil => simp [chainFinal, deepestNode, visitedNodes, hl]
  | cons x xs =>
      simp [chainFinal, deepestNode, visitedNodes, hl, List.getLast?_cons_cons]

/-- C3 counterexample: on the tree with root kind `a` and single child
kind `b` (both spanning bytes 0..2), tracing byte 0 with `map_node =
kind` yields `path = [a, b]` (root-to-leaf) but `trace = [b, a]` —
`trace` (and `nth_children`) are reversed relative to `path`, so the
three sequences are not index-aligned in the same root-to-leaf order
as claimed. -/
theorem trace_at_counterexample :
    (((SyntaxCursor.mk exTSNode exTSNode).trace_at (NodeTrace.new String) 0
        TSNode.kind).2.path = ["a", "b"]) ∧
    (((SyntaxCursor.mk exTSNode exTSNode).trace_at (NodeTrace.new String) 0
        TSNode.kind).2.trace = ["b", "a"]) ∧
    ((SyntaxCursor.mk exTSNode exTSNode).trace_at (NodeTrace.new String) 0
        TSNode.kind).2.trace ≠
      ((SyntaxCursor.mk exTSNode exTSNode).trace_at (NodeTrace.new String) 0
        TSNode.kind).2.path := by
  decide

/-- C3 (amended): `trace_at` starts at the root and fully overwrites
the given trace, independently of the incoming trace and cursor
position; after the call, `path` lists the visited nodes' kinds in
root-to-leaf order, while `trace` and `nth_children` hold the mapped
payloads and the u16-truncated child ordinals (ordinal mod 2^16, the
`nth_child as u16` cast) of the same visited nodes in the *reversed*
(leaf-to-root) order; `is_error` is the OR of `is_error` over the
descent path; `byte_range` is the byte range of the deepest visited
node, which is the last visited node. -/
theorem trace_at_characterization (t₀ : NodeTrace T) (cpos root : TSNode) (b : Nat)
    (f : TSNode → T) :
    (SyntaxCursor.mk root cpos).trace_at t₀ b f =
      (SyntaxCursor.mk root (deepestNode b root),
        { path := (visitedNodes b root).map fun p => p.2.kind
          nth_children := ((visitedNodes b root).map fun p => p.1 % 65536).reverse
          trace := ((visitedNodes b root).map fun p => f p.2).reverse
          is_error := (visitedNodes b root).any fun p => p.2.is_error
          byte_range := ((deepestNode b root).start_byte, (deepestNode b root).end_byte) }) ∧
    (∃ q, (visitedNodes b root).getLast? = some q ∧ q.2 = deepestNode b root) := by
  constructor
  · simp only [SyntaxCursor.trace_at, NodeTrace.clear, (traceLoop_spec b f).1,
      chainFinal_descend]
    simp [pushNodes, visitedNodes]
  · cases hl : descend b root with
    | nil =>
        exact ⟨(0, root), by simp [visitedNodes, hl],
          by simp [deepestNode, visitedNodes, hl]⟩
    | cons x xs =>
        refine ⟨(x :: xs).getLast (by simp), ?_, ?_⟩
        · simp [visitedNodes, hl, List.getLast?_cons_cons, List.getLast?_eq_getLast]
        · simp [deepestNode, visitedNodes, hl, List.getLast?_cons_cons,
            List.getLast?_eq_getLast]

theorem mem_suffixPats {m : Mode} {s : List Char} :
    s ∈ m.suffixPats ↔ FilenamePattern.suffix s ∈ m.file := by
  constructor
  · intro hs
    obtain ⟨p, hp, hps⟩ := List.mem_filterMap.mp hs
    cases p with
    | suffix s0 =>
        simp only [Option.some.injEq] at hps
        rwa [← hps]
    | name n => simp at hps
  · intro hp
    exact List.mem_filterMap.mpr ⟨FilenamePattern.suffix s, hp, rfl⟩

theorem mem_namePats {m : Mode} {n : List Char} :
    n ∈ m.namePats ↔ FilenamePattern.name n ∈ m.file := by
  constructor
  · intro hn
    obtain ⟨p, hp, hpn⟩ := List.mem_filterMap.mp hn
    cases p with
    | suffix s0 => simp at hpn
    | name n0 =>
        simp only [Option.some.injEq] at hpn
        rwa [← hpn]
  · intro hp
    exact List.mem_filterMap.mpr ⟨FilenamePattern.name n, hp, rfl⟩

/-- The only exact-name pattern in the mode table is `Dockerfile`. -/
theorem namePats_dockerfile :
    ∀ m ∈ LANGUAGE_MODES, ∀ n ∈ m.namePats, n = "Dockerfile".data := by
  decide

set_option maxHeartbeats 1000000 in
/-- No suffix pattern of the mode table is a proper suffix of another:
if one matching suffix pattern is a suffix of another then they are the
same string. -/
theorem suffixPats_pairwise :
    ∀ m ∈ LANGUAGE_MODES, ∀ s ∈ m.suffixPats,
    ∀ m' ∈ LANGUAGE_MODES, ∀ s' ∈ m'.suffixPats,
    s.isSuffixOf s' = true → s = s' := by
  decide

/-- C4: `find_by_filename` conforms to the specification's matching
policy: when some mode's exact filename pattern matches the file name,
the returned mode exact-matches; otherwise, when some mode's suffix
pattern matches, the returned mode has a matching suffix pattern of
maximal length among all matching suffix patterns of all modes; and
the plain-text mode is returned when no pattern matches. -/
theorem find_by_filename_follows_policy (f? : Option (List Char)) :
    IsSpecChoice f? (find_by_filename f?) := by
  cases f? with
  | none =>
      show find_by_filename none = PLAIN_TEXT_MODE
      decide
  | some f =>
      by_cases hdock : f = "Dockerfile".data
      · subst hdock
        simp only [IsSpecChoice]
        rw [if_pos
          (by decide : ∃ m' ∈ LANGUAGE_MODES, ∃ n ∈ m'.namePats, "Dockerfile".data = n)]
        decide
      · simp only [IsSpecChoice]
        have hnoexact : ¬ ∃ m' ∈ LANGUAGE_MODES, ∃ n ∈ m'.namePats, f = n := by
          rintro ⟨m', hm', n, hn, hfn⟩
          exact hdock (hfn.trans (namePats_dockerfile m' hm' n hn))
        rw [if_neg hnoexact]
        cases hfind : LANGUAGE_MODES.find? (fun m => m.matches_by_filename (some f)) with
        | none =>
            have hfbf : find_by_filename (some f) = PLAIN_TEXT_MODE := by
              simp [find_by_filename, hfind]
            have hnosuffix : ¬ ∃ m' ∈ LANGUAGE_MODES, ∃ s ∈ m'.suffixPats, s <:+ f := by
              rintro ⟨m', hm', s, hs, hsf⟩
              have hnone := List.find?_eq_none.mp hfind m' hm'
              apply hnone
              simp only [Mode.matches_by_filename]
              refine List.any_eq_true.mpr ⟨FilenamePattern.suffix s, mem_suffixPats.mp hs, ?_⟩
              simp only [FilenamePattern.matches]
              exact List.isSuffixOf_iff_suffix.mpr hsf
            rw [if_neg hnosuffix, hfbf]
        | some m =>
            have hmem : m ∈ LANGUAGE_MODES := List.mem_of_find?_eq_some hfind
            have hmatch := List.find?_some hfind
            have hfbf : find_by_filename (some f) = m := by
              simp [find_by_filename, hfind]
            obtain ⟨p, hp, hpm⟩ := List.any_eq_true.mp hmatch
            cases p with
            | name n =>
                exfalso
                apply hdock
                have hfn : f = n := by
                  simpa [FilenamePattern.matches] using hpm
                exact hfn.trans (namePats_dockerfile m hmem n (mem_namePats.mpr hp))
            | suffix s =>
                have hsf : s <:+ f := by
                  have hsuf : s.isSuffixOf f = true := by
                    simpa [FilenamePattern.matches] using hpm
                  exact List.isSuffixOf_iff_suffix.mp hsuf
                have hs : s ∈ m.suffixPats := mem_suffixPats.mpr hp
                rw [if_pos ⟨m, hmem, s, hs, hsf⟩, hfbf]
                refine ⟨hmem, s, ⟨hs, hsf⟩, ?_⟩
                intro m' hm' s' hss'
                obtain ⟨hs', hs'f⟩ := hss'
                rcases List.suffix_or_suffix_of_suffix hsf hs'f with h1 | h2
                · have heq := suffixPats_pairwise m hmem s hs m' hm' s' hs'
                    (List.isSuffixOf_iff_suffix.mpr h1)
                  rw [heq]
                · have heq := suffixPats_pairwise m' hm' s' hs' m hmem s hs
                    (List.isSuffixOf_iff_suffix.mpr h2)
                  rw [heq]

/-- C9: when no buffer is open on the path, `open_file` on an existing
file whose read fails (I/O error or invalid UTF-8) returns that error
and `update` surfaces it as a status-area log message with the editor
state — buffer collection and window tree — unchanged; `open_file` on
an absent path instead succeeds with `Ok(true)`, appending a buffer
with an empty rope and surfacing the `[New file]` log message. -/
theorem open_file_error_and_new_file
    (ed : EditorState) (fs : FileSystem) (repo : Option Unit) (path : FilePath') :
    (∀ e, ed.buffers.find_by_path path = none →
      fs path = FsFile.readable (Except.error e) →
      open_file ed fs repo path = Except.error e ∧
      update_open_file ed fs repo path =
        (ed, PromptAction.log ("Could not open file: " ++ e.message))) ∧
    (ed.buffers.find_by_path path = none →
      fs path = FsFile.absent →
      open_file ed fs repo path =
        Except.ok
          (focus_on_buffer
            { ed with
              buffers :=
                { entries := ed.buffers.entries ++
                    [{ id := ed.buffers.next_id, file_path := some path
                       content := Rope.new, repo := repo }]
                  next_id := ed.buffers.next_id + 1 } }
            ed.buffers.next_id, true) ∧
      (update_open_file ed fs repo path).2 = PromptAction.log "[New file]") := by
  constructor
  · intro e hfind hfs
    have hopen : open_file ed fs repo path = Except.error e := by
      simp [open_file, hfind, hfs, bind, Except.bind]
    refine ⟨hopen, ?_⟩
    simp [update_open_file, hopen]
  · intro hfind hfs
    have hopen : open_file ed fs repo path =
        Except.ok
          (focus_on_buffer
            { ed with
              buffers :=
                { entries := ed.buffers.entries ++
                    [{ id := ed.buffers.next_id, file_path := some path
                       content := Rope.new, repo := repo }]
                  next_id := ed.buffers.next_id + 1 } }
            ed.buffers.next_id, true) := by
      simp [open_file, hfind, hfs, bind, Except.bind, Buffers.add]
    rw [hopen]
    refine ⟨rfl, ?_⟩
    simp [update_open_file, hopen]

/-- C9 witness: opening `bad.bin` (existing, invalid UTF-8) in an
editor with one open buffer returns `InvalidUtf8`, surfaces the log
message and leaves the state unchanged; opening the absent `new.txt`
surfaces `[New file]`. -/
theorem open_file_error_and_new_file_witness :
    (open_file exEditor exFs none "bad.bin" = Except.error FileError.InvalidUtf8 ∧
      update_open_file exEditor exFs none "bad.bin" =
        (exEditor, PromptAction.log ("Could not open file: " ++
          FileError.InvalidUtf8.message))) ∧
    (update_open_file exEditor exFs none "new.txt").2 = PromptAction.log "[New file]" :=
  ⟨(open_file_error_and_new_file exEditor exFs none "bad.bin").1
      FileError.InvalidUtf8 rfl rfl,
    ((open_file_error_and_new_file exEditor exFs none "new.txt").2 rfl rfl).2⟩

/-- C10: when a buffer is already open on the path, `open_file`
returns `Ok(false)` and only focuses the existing buffer: the buffer
collection is unchanged and the file system is never consulted (the
result is the same for any file system and any repository probe). -/
theorem open_file_already_open
    (ed : EditorState) (fs fs' : FileSystem) (repo repo' : Option Unit)
    (path : FilePath') (bid : Nat)
    (h : ed.buffers.find_by_path path = some bid) :
    open_file ed fs repo path = Except.ok (focus_on_buffer ed bid, false) ∧
    (focus_on_buffer ed bid).buffers = ed.buffers ∧
    open_file ed fs repo path = open_file ed fs' repo' path := by
  have hopen : ∀ (g : FileSystem) (r : Option Unit),
      open_file ed g r path = Except.ok (focus_on_buffer ed bid, false) := by
    intro g r
    simp [open_file, h]
  refine ⟨hopen fs repo, ?_, by rw [hopen fs repo, hopen fs' repo']⟩
  unfold focus_on_buffer
  split_ifs <;> rfl

/-- C10 witness: re-opening `a.txt`, which is already open as buffer
0, focuses it and returns `Ok(false)` with the buffer collection
unchanged. -/
theorem open_file_already_open_witness :
    open_file exEditor exFs none "a.txt" =
      Except.ok (focus_on_buffer exEditor 0, false) ∧
    (focus_on_buffer exEditor 0).buffers = exEditor.buffers :=
  ⟨(open_file_already_open exEditor exFs exFs none none "a.txt" 0 rfl).1,
    (open_file_already_open exEditor exFs exFs none none "a.txt" 0 rfl).2.1⟩

end Zee
